import Mathlib

/-!
Shallow embedding of the dust-collector control plane
(`src/tasks/base_gate_controller.py`, `src/hardware/pcf_relays.py`,
`src/hardware/pcf8574.py`, `src/tasks/adc_watch.py`, `src/tasks/aqm_reader.py`,
`src/tasks/collector_ssr_controller.py`) and proofs of the specification
claims about it.
-/

namespace DustCollector

/-! ## Gate controller (`base_gate_controller.py`)

A gate controller owns a pair of antagonistic relay bits (`relay_open_bit`,
`relay_close_bit`).  Its `run` loop handles `<tool>.on` / `<tool>.off`
events: each event cancels the in-flight motion task (whose `finally`
path runs `stop_pair`, de-energizing both bits) and starts a fresh motion
task.  A motion task first de-energizes the antagonistic relay
(`set_relay(other, False)`), sleeps the deadtime, energizes its own relay
(`set_relay(own, True)`), sleeps up to `MAX_DRIVE_S`, and finally runs
`stop_pair`.  We model the task as a program counter advancing at the
asyncio suspension points (the sleeps); `Cmd.tick` advances the motion
task one phase, `Cmd.ev d` delivers an event to the `run` loop. -/

/-- Motion direction of a gate drive task (`_drive_open_then_stop` /
`_drive_close_then_stop`). -/
inductive Dir where
  | opening
  | closing
deriving DecidableEq, Repr

/-- The opposite direction: the antagonistic relay of a drive. -/
def Dir.other : Dir → Dir
  | .opening => .closing
  | .closing => .opening

/-- Program counter of a motion task, between its suspension points:
`started` = task created, body not yet run; `deadtime` = antagonistic
relay de-energized, sleeping `RELAY_DEADTIME_S`; `driving` = own relay
energized, sleeping `MAX_DRIVE_S`. -/
inductive MotionPc where
  | started
  | deadtime
  | driving
deriving DecidableEq, Repr

/-- Observable relay actions issued through `PcfRelays`
(`en` is the `on` argument of `set_relay`). -/
inductive RelayAction where
  | setRelay (d : Dir) (en : Bool)
  | stopPair
deriving DecidableEq, Repr

/-- State of one gate controller: its two relay bits (true = energized),
the in-flight motion task if any, and the log of relay actions issued. -/
structure Gate where
  openBit : Bool
  closeBit : Bool
  task : Option (Dir × MotionPc)
  log : List RelayAction
deriving DecidableEq, Repr

/-- The relay bit a direction energizes. -/
def Gate.bit (g : Gate) : Dir → Bool
  | .opening => g.openBit
  | .closing => g.closeBit

/-- `BaseGateController._cancel_motion`: if a motion task is in flight it
is cancelled and awaited; the cancelled task's `finally` path completes
`_relay_stop` (= `stop_pair`), de-energizing both bits, before control
returns.  With no task in flight nothing happens. -/
def cancelMotion (g : Gate) : Gate :=
  match g.task with
  | none => g
  | some _ =>
      { openBit := false
        closeBit := false
        task := none
        log := g.log ++ [.stopPair] }

/-- The `run` loop's handler for `<tool>.on` (d = opening) or
`<tool>.off` (d = closing): set the LEDs (not modelled), cancel any
in-flight motion, and create a fresh motion task. -/
def handleEvent (d : Dir) (g : Gate) : Gate :=
  let g' := cancelMotion g
  { g' with task := some (d, .started) }

/-- Advance the in-flight motion task past its next suspension point,
mirroring `_drive_open_then_stop` / `_drive_close_then_stop`:
`started → deadtime` performs `set_relay(other, False)`;
`deadtime → driving` performs `set_relay(own, True)`;
`driving → done` performs the `finally` `stop_pair` and the task ends. -/
def taskStep (g : Gate) : Gate :=
  match g.task with
  | none => g
  | some (.opening, .started) =>
      { g with
          closeBit := false
          task := some (.opening, .deadtime)
          log := g.log ++ [.setRelay .closing false] }
  | some (.closing, .started) =>
      { g with
          openBit := false
          task := some (.closing, .deadtime)
          log := g.log ++ [.setRelay .opening false] }
  | some (.opening, .deadtime) =>
      { g with
          openBit := true
          task := some (.opening, .driving)
          log := g.log ++ [.setRelay .opening true] }
  | some (.closing, .deadtime) =>
      { g with
          closeBit := true
          task := some (.closing, .driving)
          log := g.log ++ [.setRelay .closing true] }
  | some (_, .driving) =>
      { openBit := false
        closeBit := false
        task := none
        log := g.log ++ [.stopPair] }

/-- One scheduler event: either the `run` loop handles a tool event, or
the motion task advances past a suspension point. -/
inductive Cmd where
  | ev (d : Dir)
  | tick
deriving DecidableEq, Repr

def gateStep (g : Gate) : Cmd → Gate
  | .ev d => handleEvent d g
  | .tick => taskStep g

/-- Boot state of the controller: `_relay_stop` has been run (both bits
de-energized), no motion task. -/
def gateInit : Gate := ⟨false, false, none, []⟩

/-- Execution of the controller over a finite command sequence. -/
def gateRun (cmds : List Cmd) : Gate :=
  cmds.foldl gateStep gateInit

/-- Number of relay energize actions (`set_relay(_, True)`) in a log. -/
def countEnergize (l : List RelayAction) : Nat :=
  l.countP (fun a => match a with | .setRelay _ true => true | _ => false)

/-- The safety invariant carried through the induction: both relay bits
are de-energized except while a motion task is in the `driving` phase, in
which case the antagonistic bit is de-energized. -/
def gateInvB (g : Gate) : Bool :=
  match g.task with
  | none => !g.openBit && !g.closeBit
  | some (_, .started) => !g.openBit && !g.closeBit
  | some (_, .deadtime) => !g.openBit && !g.closeBit
  | some (.opening, .driving) => !g.closeBit
  | some (.closing, .driving) => !g.openBit

lemma gateInv_init : gateInvB gateInit = true := by
  simp [gateInvB, gateInit]

lemma gateInv_step (g : Gate) (c : Cmd) (h : gateInvB g = true) :
    gateInvB (gateStep g c) = true := by
  obtain ⟨ob, cb, tk, lg⟩ := g
  rcases c with d | _
  · rcases tk with _ | ⟨d', pc⟩
    · cases d <;> simp_all [gateInvB, gateStep, handleEvent, cancelMotion]
    · cases d <;> cases d' <;> cases pc <;>
        simp_all [gateInvB, gateStep, handleEvent, cancelMotion]
  · rcases tk with _ | ⟨d', pc⟩
    · simp_all [gateInvB, gateStep, taskStep]
    · cases d' <;> cases pc <;> simp_all [gateInvB, gateStep, taskStep]

lemma gateInv_foldl (cmds : List Cmd) :
    ∀ g : Gate, gateInvB g = true → gateInvB (cmds.foldl gateStep g) = true := by
  induction cmds with
  | nil => intro g h; simpa using h
  | cons c cs ih =>
      intro g h
      simpa [List.foldl_cons] using ih (gateStep g c) (gateInv_step g c h)

lemma gateInv_run (cmds : List Cmd) : gateInvB (gateRun cmds) = true :=
  gateInv_foldl cmds gateInit gateInv_init

lemma gateInvB_not_both (g : Gate) (h : gateInvB g = true) :
    g.openBit = false ∨ g.closeBit = false := by
  obtain ⟨ob, cb, tk, lg⟩ := g
  rcases tk with _ | ⟨d', pc⟩
  · simp_all [gateInvB]
  · cases d' <;> cases pc <;> simp_all [gateInvB]


/-- C1: for every gate controller and every finite sequence of
`<tool>.on` / `<tool>.off` events delivered to it (including events
arriving while a motion is in flight, interleaved here as `Cmd.tick`
steps of the motion task), at no observable instant are the gate's
`relay_open_bit` and `relay_close_bit` simultaneously energized: every
transition de-energizes the antagonistic relay (and the cancelled motion
task completes `stop_pair`) before the new direction relay is
energized. -/
theorem gate_relays_never_both_energized (cmds : List Cmd) :
    (gateRun cmds).openBit = false ∨ (gateRun cmds).closeBit = false :=
  gateInvB_not_both _ (gateInv_run cmds)

/-- C3 counterexample: two successive `saw.on` events with no intervening
`saw.off` are *not* idempotent at the relay-action level.  After
`saw.on` plus two task steps the open relay is energized; a second
`saw.on` cancels the motion task, whose cleanup `stop_pair` de-energizes
the open relay, and the restarted drive energizes it a second time (the
energize count goes from 1 to 2). -/
theorem gate_second_on_counterexample :
    (gateRun [Cmd.ev .opening, .tick, .tick]).openBit = true ∧
    (gateRun [Cmd.ev .opening, .tick, .tick, .ev .opening]).openBit = false ∧
    (gateRun [Cmd.ev .opening, .tick, .tick, .ev .opening, .tick,
        .tick]).openBit = true ∧
    countEnergize (gateRun [Cmd.ev .opening, .tick, .tick]).log = 1 ∧
    countEnergize (gateRun [Cmd.ev .opening, .tick, .tick, .ev .opening,
        .tick, .tick]).log = 2 := by
  decide

/-- C3 (amended): a second `saw.on` with no intervening `saw.off` is not
a no-op: it cancels the in-flight open motion (the cleanup `stop_pair`
de-energizes the open relay) and restarts the open drive, producing one
additional energize of the open relay; after the restarted drive reaches
its driving phase the relay bits and task state equal those before the
second event, so the second event is idempotent in the resulting state
but not in relay actions. -/
theorem gate_second_on_restarts_drive (g : Gate)
    (htask : g.task = some (Dir.opening, MotionPc.driving))
    (hopen : g.openBit = true) (hclose : g.closeBit = false) :
    (handleEvent .opening g).openBit = false ∧
    (handleEvent .opening g).closeBit = false ∧
    (taskStep (taskStep (handleEvent .opening g))).openBit = true ∧
    (taskStep (taskStep (handleEvent .opening g))).closeBit = false ∧
    (taskStep (taskStep (handleEvent .opening g))).task = g.task ∧
    countEnergize (taskStep (taskStep (handleEvent .opening g))).log
      = countEnergize g.log + 1 := by
  obtain ⟨ob, cb, tk, lg⟩ := g
  simp only at htask hopen hclose
  subst htask hopen hclose
  simp [handleEvent, cancelMotion, taskStep, countEnergize,
    List.countP_append, List.countP_cons]

/-- Witness for C3's amended theorem at the concrete reachable state
after `saw.on` followed by two motion-task steps. -/
theorem gate_second_on_restarts_drive_witness :
    ((gateRun [Cmd.ev .opening, .tick, .tick]).task
        = some (Dir.opening, MotionPc.driving) ∧
      (gateRun [Cmd.ev .opening, .tick, .tick]).openBit = true ∧
      (gateRun [Cmd.ev .opening, .tick, .tick]).closeBit = false) ∧
    countEnergize (taskStep (taskStep (handleEvent .opening
        (gateRun [Cmd.ev .opening, .tick, .tick])))).log
      = countEnergize (gateRun [Cmd.ev .opening, .tick, .tick]).log + 1 :=
  ⟨⟨by decide, by decide, by decide⟩,
    (gate_second_on_restarts_drive (gateRun [Cmd.ev .opening, .tick, .tick])
      (by decide) (by decide) (by decide)).2.2.2.2.2⟩


/-! ## Byte expander (`hardware/pcf8574.py`)

`PCF8574.write_byte` masks the value to a byte, assigns `self.state`,
and then performs the bus write.  `busOk` models whether the underlying
`i2c.bus.write_byte` call succeeds or raises; the field assignment
precedes the bus write, so it persists either way. -/

/-- `PCF8574.write_byte(value)`: returns the cached `state` after the
call and whether the bus write completed without raising. -/
def pcf8574WriteByte (_state v : Nat) (busOk : Bool) : Nat × Bool :=
  let value := v % 256
  let newState := value
  (newState, busOk)

/-! ## Relay bank (`hardware/pcf_relays.py`)

`set_relay(bit, on)` reads the current byte from the device, flips the
one bit according to the configured polarity (`_set_bit`), and writes
the result back through `_write_byte`, which masks with `0xFF`. -/

/-- `PcfRelays._mask`. -/
def pcfMask (bit : Nat) : Nat := 1 <<< bit

/-- `PcfRelays._set_bit(byte_val, bit, on)`: with `active_low` polarity,
energize (`en = true`) drives the pin low; otherwise high. -/
def pcfSetBit (activeLow : Bool) (byteVal bit : Nat) (en : Bool) : Nat :=
  let driveHigh := if activeLow then !en else en
  if driveHigh then byteVal ||| pcfMask bit
  else Nat.ldiff byteVal (pcfMask bit)

/-- `PcfRelays.set_relay(bit, on)` on a device byte `base` read back from
the expander: the byte written by `_write_byte` (which masks `& 0xFF`). -/
def setRelayWritten (activeLow : Bool) (base bit : Nat) (en : Bool) : Nat :=
  pcfSetBit activeLow base bit en &&& 255

/-- `PcfRelays.stop_pair(bit_a, bit_b)`: read back `base`, de-energize
both bits, write the result in a single bus write. -/
def stopPairWritten (activeLow : Bool) (base bitA bitB : Nat) : Nat :=
  pcfSetBit activeLow (pcfSetBit activeLow base bitA false) bitB false &&& 255


lemma mask_testBit (bit i : Nat) : (pcfMask bit).testBit i = decide (bit = i) := by
  unfold pcfMask
  rw [Nat.shiftLeft_eq, one_mul]
  rcases eq_or_ne bit i with h | h
  · simp [h, Nat.testBit_two_pow_self]
  · simp [h, Nat.testBit_two_pow_of_ne h]

lemma byte255_testBit (i : Nat) : (255 : Nat).testBit i = decide (i < 8) := by
  have : (255 : Nat) = 2^8 - 1 := by norm_num
  rw [this, Nat.testBit_two_pow_sub_one]

/-- C2 counterexample: the byte expander's cache is *not* left unchanged
when the bus write raises.  After a successful `write_byte(5)` the cache
is 5; a subsequent `write_byte(7)` whose bus write raises leaves the
cache at 7, not at the last successfully written byte 5 (the assignment
`self.state = value` precedes the bus write). -/
theorem write_byte_failure_counterexample :
    (pcf8574WriteByte 255 5 true).1 = 5 ∧
    (pcf8574WriteByte 5 7 false).2 = false ∧
    (pcf8574WriteByte 5 7 false).1 = 7 ∧ (7 : Nat) ≠ 5 := by
  decide

/-- C2 (amended): `write_byte(v)` writes `v & 0xFF` to the device and
updates the cached state unconditionally *before* the bus write: whether
or not the underlying bus write raises, the cached state equals
`v & 0xFF` afterward. -/
theorem write_byte_cache_always_updated (state v : Nat) (busOk : Bool) :
    (pcf8574WriteByte state v busOk).1 = v % 256 := rfl

lemma setRelayWritten_spec (activeLow en : Bool) (base bit : Nat)
    (hbit : bit < 8) (hbase : base < 256) :
    ((setRelayWritten activeLow base bit en).testBit bit = xor en activeLow) ∧
    (∀ i, i ≠ bit →
      (setRelayWritten activeLow base bit en).testBit i = base.testBit i) := by
  constructor
  · unfold setRelayWritten pcfSetBit
    rcases activeLow with _ | _ <;> rcases en with _ | _ <;>
      simp [Nat.testBit_land, Nat.testBit_lor, Nat.testBit_ldiff,
        mask_testBit, byte255_testBit, hbit]
  · intro i hi
    rcases Nat.lt_or_ge i 8 with h8 | h8
    · unfold setRelayWritten pcfSetBit
      rcases activeLow with _ | _ <;> rcases en with _ | _ <;>
        simp [Nat.testBit_land, Nat.testBit_lor, Nat.testBit_ldiff,
          mask_testBit, byte255_testBit, h8, Ne.symm hi]
    · have hb : base.testBit i = false :=
        Nat.testBit_eq_false_of_lt (lt_of_lt_of_le hbase (by
          calc (256:Nat) = 2^8 := by norm_num
          _ ≤ 2^i := Nat.pow_le_pow_right (by norm_num) h8))
      unfold setRelayWritten pcfSetBit
      rcases activeLow with _ | _ <;> rcases en with _ | _ <;>
        simp [Nat.testBit_land, Nat.testBit_lor, Nat.testBit_ldiff,
          mask_testBit, byte255_testBit, hb, Nat.not_lt.mpr h8]

/-- C9 counterexample: the claimed polarity formula is inverted.  With
`active_low = True`, `on = True`, read-back byte `0xFF` and bit 0, the
code drives the pin LOW (written bit 0 clear), while the claimed level
`on XOR not active_low = True XOR False = True` predicts HIGH. -/
theorem set_relay_polarity_counterexample :
    (setRelayWritten true 255 0 true).testBit 0 = false ∧
    xor true (!true) = true :=
  ⟨(setRelayWritten_spec true true 255 0 (by decide) (by decide)).1, by decide⟩

/-- C9 (amended): for every bit in 0..7, every boolean `on`, and every
byte `b` read back from the device, `set_relay(bit, on)` writes a byte
that differs from `b` at most in position `bit`; that bit's written
level is high when `(on XOR active_low)` is true and low otherwise
(`active_low = True` means energize drives the pin low); all seven other
bits are unchanged. -/
theorem set_relay_frame_effect (activeLow en : Bool) (base bit : Nat)
    (hbit : bit < 8) (hbase : base < 256) :
    ((setRelayWritten activeLow base bit en).testBit bit = xor en activeLow) ∧
    (∀ i, i ≠ bit →
      (setRelayWritten activeLow base bit en).testBit i = base.testBit i) :=
  setRelayWritten_spec activeLow en base bit hbit hbase

/-- Witness for C9's amended theorem at `active_low = True`, `on = True`,
read-back byte `0xFF`, bit 0 (and spectator bit 3). -/
theorem set_relay_frame_effect_witness :
    (0 : Nat) < 8 ∧ (255 : Nat) < 256 ∧
    (setRelayWritten true 255 0 true).testBit 0 = xor true true ∧
    (setRelayWritten true 255 0 true).testBit 3 = (255 : Nat).testBit 3 :=
  ⟨by decide, by decide,
    (set_relay_frame_effect true true 255 0 (by decide) (by decide)).1,
    (set_relay_frame_effect true true 255 0 (by decide) (by decide)).2 3
      (by decide)⟩


/-! ## ADC watcher (`tasks/adc_watch.py`)

`run_adc_watch` validates its configuration at startup (fail fast), then
runs one `_watch_one` hysteresis loop per channel.  Config floats are
modelled as rationals (they are only compared, never computed with). -/

/-- `AdcWatchConfig` (defaults as in the dataclass). -/
structure AdcWatchConfig where
  i2c_address : Nat := 0x48
  sample_hz : ℚ := 10
  saw_channel : Nat := 0
  lathe_channel : Nat := 1
  saw_on_threshold : ℚ := 1
  saw_off_threshold : ℚ := 3/10
  lathe_on_threshold : ℚ := 1/25
  lathe_off_threshold : ℚ := 1/40
  consecutive_required : Nat := 3
deriving DecidableEq, Repr

/-- The configuration checks `run_adc_watch` performs before sampling
(after the import check, which depends only on the environment):
`some msg` models `raise ValueError(msg)`, `none` means the watcher
proceeds to sampling. -/
def runAdcWatchValidate (cfg : AdcWatchConfig) : Option String :=
  if cfg.sample_hz ≤ 0 then some "sample_hz must be > 0"
  else if cfg.consecutive_required < 1 then
    some "consecutive_required must be >= 1"
  else if cfg.saw_channel ≠ 0 then
    some "This watcher expects saw_channel=0 (A0)"
  else if cfg.lathe_channel ≠ 1 then
    some "This watcher expects lathe_channel=1 (A1)"
  else none

/-- C4 counterexample: a configuration whose saw channel has
`off_threshold ≥ on_threshold` passes all of `run_adc_watch`'s startup
checks: no configuration error is raised and sampling starts. -/
theorem adc_watch_accepts_inverted_thresholds :
    runAdcWatchValidate { saw_on_threshold := 1, saw_off_threshold := 2 } = none ∧
    ({ saw_on_threshold := 1, saw_off_threshold := 2 :
        AdcWatchConfig }).saw_on_threshold ≤
      ({ saw_on_threshold := 1, saw_off_threshold := 2 :
        AdcWatchConfig }).saw_off_threshold := by
  constructor
  · rfl
  · norm_num

/-- C4 (amended): `run_adc_watch` rejects at startup exactly the
configurations with `sample_hz ≤ 0`, `consecutive_required < 1`,
`saw_channel ≠ 0`, or `lathe_channel ≠ 1`; it performs no check relating
`off_threshold` to `on_threshold`, so a channel with
`off_threshold ≥ on_threshold` is accepted and sampling begins. -/
theorem adc_watch_validation_spec (cfg : AdcWatchConfig) :
    runAdcWatchValidate cfg = none ↔
      (0 < cfg.sample_hz ∧ 1 ≤ cfg.consecutive_required ∧
        cfg.saw_channel = 0 ∧ cfg.lathe_channel = 1) := by
  unfold runAdcWatchValidate
  split_ifs with h1 h2 h3 h4
  all_goals simp_all
  all_goals omega

/-- `<tool>.on` / `<tool>.off` events published by `_watch_one`. -/
inductive ToolEdge where
  | toolOn
  | toolOff
deriving DecidableEq, Repr

/-- Per-channel state of `_watch_one` (`is_on`, `above_on`,
`below_off`). -/
structure ChanState where
  isOn : Bool
  aboveOn : Nat
  belowOff : Nat
deriving DecidableEq, Repr

/-- One iteration of the `_watch_one` loop on sample `v`: returns the
new channel state and the published event, if any. -/
def watchStep (onTh offTh : ℚ) (consecutiveRequired : Nat)
    (s : ChanState) (v : ℚ) : ChanState × Option ToolEdge :=
  if s.isOn = false then
    if v ≥ onTh then
      if s.aboveOn + 1 ≥ consecutiveRequired then
        (⟨true, 0, 0⟩, some .toolOn)
      else ({ s with aboveOn := s.aboveOn + 1 }, none)
    else ({ s with aboveOn := 0 }, none)
  else
    if v ≤ offTh then
      if s.belowOff + 1 ≥ consecutiveRequired then
        (⟨false, 0, 0⟩, some .toolOff)
      else ({ s with belowOff := s.belowOff + 1 }, none)
    else ({ s with belowOff := 0 }, none)

/-- C5 counterexample: with `off_threshold = 0 < 1 = on_threshold` and
`consecutive_required = 1`, a sample exactly at `on_threshold` (which is
inside the closed band `[off_threshold, on_threshold]`) flips `is_on`
from false to true and publishes `<tool>.on` — the closed-interval form
of the claim contradicts its own boundary rule. -/
theorem adc_deadband_counterexample :
    (0 : ℚ) < 1 ∧ (0 : ℚ) ≤ 1 ∧ (1 : ℚ) ≤ 1 ∧
    (watchStep 1 0 1 ⟨false, 0, 0⟩ 1).1.isOn = true ∧
    (watchStep 1 0 1 ⟨false, 0, 0⟩ 1).2 = some .toolOn := by
  refine ⟨by norm_num, by norm_num, le_refl 1, ?_, ?_⟩ <;> · simp [watchStep]

/-- C5 (amended): for every channel and every channel state, processing
a single sample `v` strictly inside the hysteresis band
(`off_threshold < v < on_threshold`) never changes `is_on` and never
publishes a `<tool>.on` or `<tool>.off` event.  (A sample exactly at
`on_threshold` counts as above and can commit ON; one exactly at
`off_threshold` counts as below and can commit OFF, so the endpoints
must be excluded.) -/
theorem adc_deadband_no_transition (onTh offTh v : ℚ)
    (consecutiveRequired : Nat) (s : ChanState)
    (hlo : offTh < v) (hhi : v < onTh) :
    (watchStep onTh offTh consecutiveRequired s v).1.isOn = s.isOn ∧
    (watchStep onTh offTh consecutiveRequired s v).2 = none := by
  unfold watchStep
  split_ifs with h1 h2 h3 h4 h5 <;> simp_all <;> linarith

/-- Witness for C5's amended theorem: `on = 1`, `off = 0`, `v = 1/2`,
`consecutive_required = 3`, state `is_on = false, above_on = 2`. -/
theorem adc_deadband_no_transition_witness :
    ((0 : ℚ) < 1/2 ∧ (1/2 : ℚ) < 1) ∧
    (watchStep 1 0 3 ⟨false, 2, 0⟩ (1/2)).1.isOn
        = (⟨false, 2, 0⟩ : ChanState).isOn ∧
    (watchStep 1 0 3 ⟨false, 2, 0⟩ (1/2)).2 = none :=
  ⟨⟨by norm_num, by norm_num⟩,
    (adc_deadband_no_transition 1 0 (1/2) 3 ⟨false, 2, 0⟩
      (by norm_num) (by norm_num)).1,
    (adc_deadband_no_transition 1 0 (1/2) 3 ⟨false, 2, 0⟩
      (by norm_num) (by norm_num)).2⟩


/-! ## AQM reader (`tasks/aqm_reader.py`)

The reader parses PMS frames, maintains rolling histories, filters them
with `_avg_last`, and drives an `is_bad` hysteresis latch on the
filtered pm2.5, publishing `aqm.metrics` every valid frame and
`aqm.good`/`aqm.bad` when the latch is (re)announced. -/

/-- `_clamp_bad_off_threshold(bad_off_th, bad_on_th)`. -/
def clampBadOffThreshold (badOffTh badOnTh : ℤ) : ℤ :=
  if badOffTh ≥ badOnTh then badOnTh - 1 else badOffTh

/-- The hysteresis block of `aqm_reader`: the new `is_bad` after a frame
whose filtered pm2.5 is `pm25`. -/
def updateIsBad (isBad : Bool) (pm25 badOnTh badOffTh : ℤ) : Bool :=
  if isBad then (if pm25 ≤ badOffTh then false else true)
  else (if pm25 ≥ badOnTh then true else false)

/-- C6: for every AQM reader state, `is_bad` transitions from false to
true only when the filtered pm2.5 is ≥ `bad_on_threshold`, and from true
to false only when the filtered pm2.5 is ≤ `bad_off_threshold`, where
`bad_off_threshold` is clamped to `bad_on_threshold - 1` whenever the
configured off threshold is ≥ the on threshold. -/
theorem aqm_is_bad_hysteresis (isBad : Bool) (pm25 badOnTh badOffCfg : ℤ) :
    (isBad = false →
      updateIsBad isBad pm25 badOnTh (clampBadOffThreshold badOffCfg badOnTh)
          = true →
      pm25 ≥ badOnTh) ∧
    (isBad = true →
      updateIsBad isBad pm25 badOnTh (clampBadOffThreshold badOffCfg badOnTh)
          = false →
      pm25 ≤ clampBadOffThreshold badOffCfg badOnTh) ∧
    (badOffCfg ≥ badOnTh →
      clampBadOffThreshold badOffCfg badOnTh = badOnTh - 1) := by
  unfold updateIsBad clampBadOffThreshold
  split_ifs <;> simp_all

/-- Witness for C6 at `is_bad = false`, filtered pm2.5 = 40,
`bad_on = 35`, configured `bad_off = 40` (clamped to 34). -/
theorem aqm_is_bad_hysteresis_witness :
    (false = false ∧
      updateIsBad false 40 35 (clampBadOffThreshold 40 35) = true ∧
      (40 : ℤ) ≥ 35) ∧
    ((40 : ℤ) ≥ 35 ∧ clampBadOffThreshold 40 35 = 35 - 1) :=
  ⟨⟨rfl, by decide,
    (aqm_is_bad_hysteresis false 40 35 40).1 rfl (by decide)⟩,
    by decide, (aqm_is_bad_hysteresis false 40 35 40).2.2 (by decide)⟩

/-- Events published by `aqm_reader` per valid frame. -/
inductive AqmEvent where
  | metrics (pm25 : ℤ)
  | good (pm25 : ℤ) (severe : Bool)
  | bad (pm25 : ℤ) (severe : Bool)
deriving DecidableEq, Repr

/-- The publication-relevant state of the reader loop: the `is_bad`
latch and `last_is_bad` (None before the first publication). -/
structure AqmState where
  isBad : Bool
  lastIsBad : Option Bool
deriving DecidableEq, Repr

/-- Processing of one valid frame with filtered pm2.5 `pm25` by the
`aqm_reader` loop: publish `aqm.metrics`, update `is_bad` by hysteresis,
compute `severe`, and publish `aqm.good`/`aqm.bad` when `last_is_bad` is
None or differs from the new `is_bad` (updating `last_is_bad` then). -/
def aqmFrameStep (badOnTh badOffTh sevTh : ℤ) (s : AqmState) (pm25 : ℤ) :
    AqmState × List AqmEvent :=
  let isBad' := updateIsBad s.isBad pm25 badOnTh badOffTh
  let severe := decide (pm25 ≥ sevTh)
  match s.lastIsBad with
  | none =>
      (⟨isBad', some isBad'⟩,
        [.metrics pm25,
          if isBad' then .bad pm25 severe else .good pm25 severe])
  | some b =>
      if isBad' ≠ b then
        (⟨isBad', some isBad'⟩,
          [.metrics pm25,
            if isBad' then .bad pm25 severe else .good pm25 severe])
      else (⟨isBad', some b⟩, [.metrics pm25])

/-- Whether an event is an `aqm.good`/`aqm.bad` transition event. -/
def isTransitionEvent (e : AqmEvent) : Bool :=
  match e with
  | .metrics _ => false
  | _ => true

def countMetrics (evs : List AqmEvent) : Nat :=
  evs.countP (fun e => !isTransitionEvent e)

def hasTransition (evs : List AqmEvent) : Bool :=
  evs.any isTransitionEvent

/-- C7 counterexample: the very first valid frame publishes `aqm.good`
even though `is_bad` did not change while processing it (`is_bad` starts
false and stays false for pm2.5 = 0 < 35), because `last_is_bad` is
initially None. -/
theorem aqm_first_frame_counterexample :
    (aqmFrameStep 35 30 75 ⟨false, none⟩ 0).1.isBad
        = (⟨false, none⟩ : AqmState).isBad ∧
    (aqmFrameStep 35 30 75 ⟨false, none⟩ 0).2
        = [.metrics 0, .good 0 false] := by
  decide

/-- C7 (amended): every valid frame yields exactly one `aqm.metrics`;
after any frame `last_is_bad` equals the current `is_bad`; the first
valid frame (with `last_is_bad = None`) always publishes one
`aqm.good`/`aqm.bad` announcing the initial state; every later frame
publishes `aqm.good`/`aqm.bad` iff the `is_bad` latch changed while
processing that frame (i.e. differs from the recorded `last_is_bad`,
which is the previous frame's `is_bad`). -/
theorem aqm_frame_publication (badOnTh badOffTh sevTh : ℤ)
    (s : AqmState) (pm25 : ℤ) :
    countMetrics (aqmFrameStep badOnTh badOffTh sevTh s pm25).2 = 1 ∧
    (aqmFrameStep badOnTh badOffTh sevTh s pm25).1.lastIsBad
        = some (aqmFrameStep badOnTh badOffTh sevTh s pm25).1.isBad ∧
    (s.lastIsBad = none →
      hasTransition (aqmFrameStep badOnTh badOffTh sevTh s pm25).2 = true) ∧
    (∀ b, s.lastIsBad = some b →
      (hasTransition (aqmFrameStep badOnTh badOffTh sevTh s pm25).2 = true ↔
        (aqmFrameStep badOnTh badOffTh sevTh s pm25).1.isBad ≠ b)) := by
  obtain ⟨ib, lb⟩ := s
  rcases lb with _ | b
  · cases hu : updateIsBad ib pm25 badOnTh badOffTh <;>
      simp_all [aqmFrameStep, countMetrics, hasTransition, isTransitionEvent,
        List.countP_cons]
  · cases b <;> cases hu : updateIsBad ib pm25 badOnTh badOffTh <;>
      simp_all [aqmFrameStep, countMetrics, hasTransition, isTransitionEvent,
        List.countP_cons]

/-- Witness for C7's amended theorem at a post-first-frame state
(`is_bad = false`, `last_is_bad = Some false`) and a frame whose
filtered pm2.5 = 40 crosses `bad_on = 35`. -/
theorem aqm_frame_publication_witness :
    ((some false : Option Bool) = some false) ∧
    (hasTransition (aqmFrameStep 35 30 75 ⟨false, some false⟩ 40).2 = true ↔
      (aqmFrameStep 35 30 75 ⟨false, some false⟩ 40).1.isBad ≠ false) :=
  ⟨rfl, (aqm_frame_publication 35 30 75 ⟨false, some false⟩ 40).2.2.2 false rfl⟩

/-- Python `round`, applied by `_avg_last` to the exact mean: round half
to even (banker's rounding), modelled on exact rationals. -/
def roundHalfEven (q : ℚ) : ℤ :=
  if q - ⌊q⌋ < 1/2 then ⌊q⌋
  else if 1/2 < q - ⌊q⌋ then ⌊q⌋ + 1
  else if ⌊q⌋ % 2 = 0 then ⌊q⌋ else ⌊q⌋ + 1

lemma roundHalfEven_nearest (q : ℚ) : |(roundHalfEven q : ℚ) - q| ≤ 1/2 := by
  have h0 : (⌊q⌋ : ℚ) ≤ q := Int.floor_le q
  have h1 : q < ⌊q⌋ + 1 := Int.lt_floor_add_one q
  unfold roundHalfEven
  split_ifs with ha hb hc <;>
    · push_cast
      rw [abs_le]
      constructor <;> linarith

/-- `_avg_last(hist, n)`: the most recent sample when `n ≤ 1` or the
history has at most one element, else `int(round(sum(tail)/k))` over the
last `k = min(n, len(hist))` samples. -/
def avgLast (hist : List ℤ) (n : Nat) : ℤ :=
  if n ≤ 1 ∨ hist.length ≤ 1 then hist.getLastD 0
  else
    let k := min n hist.length
    let tail := hist.drop (hist.length - k)
    roundHalfEven ((tail.sum : ℚ) / (k : ℚ))

/-- C10: for every non-empty sample history and window size `n`, the
published filtered value `_avg_last(hist, n)` equals the most recent
sample when `n ≤ 1` or the history has a single element, and otherwise
is a nearest integer to the arithmetic mean of the last
`min(n, len(hist))` samples (`|value − mean| ≤ 1/2`, stated
integrally as `|2·(value·k − sum)| ≤ k`); in particular the published
pm2.5 is an integer, not the exact mean. -/
theorem avg_last_spec (hist : List ℤ) (n : Nat) (hne : hist ≠ []) :
    ((n ≤ 1 ∨ hist.length ≤ 1) → avgLast hist n = hist.getLast hne) ∧
    (2 ≤ n → 2 ≤ hist.length →
      |2 * (avgLast hist n * (min n hist.length : ℤ)
          - (hist.drop (hist.length - min n hist.length)).sum)|
        ≤ (min n hist.length : ℤ)) := by
  constructor
  · intro h
    unfold avgLast
    rw [if_pos h]
    rw [List.getLastD_eq_getLast?, List.getLast?_eq_getLast _ hne]
    rfl
  · intro hn hl
    have hcond : ¬(n ≤ 1 ∨ hist.length ≤ 1) := by omega
    unfold avgLast
    rw [if_neg hcond]
    set k := min n hist.length with hk
    have hkpos : 0 < k := by omega
    set S := (hist.drop (hist.length - k)).sum with hS
    set r := roundHalfEven ((S : ℚ) / (k : ℚ)) with hr
    have hnear : |(r : ℚ) - (S : ℚ) / (k : ℚ)| ≤ 1/2 := roundHalfEven_nearest _
    have hkq : (0 : ℚ) < (k : ℚ) := by exact_mod_cast hkpos
    have hmul : |(r : ℚ) - (S : ℚ) / (k : ℚ)| * (k : ℚ) ≤ (1/2) * (k : ℚ) :=
      mul_le_mul_of_nonneg_right hnear (le_of_lt hkq)
    have heq : |(r : ℚ) - (S : ℚ) / (k : ℚ)| * (k : ℚ)
        = |(r : ℚ) * (k : ℚ) - (S : ℚ)| := by
      rw [← abs_of_pos hkq, ← abs_mul]
      congr 1
      field_simp
    have h2 : |2 * ((r : ℚ) * (k : ℚ) - (S : ℚ))| ≤ (k : ℚ) := by
      rw [abs_mul]
      rw [heq] at hmul
      simp only [abs_two]
      linarith
    have h3 : |2 * ((r : ℤ) * (k : ℤ) - S)| ≤ (k : ℤ) := by
      exact_mod_cast h2
    exact_mod_cast h3

/-- Witness for C10 at `hist = [1, 2]`, `n = 2`: the filtered value is
`round(3/2) = 2` (half-to-even) and is within one half of the mean. -/
theorem avg_last_spec_witness :
    (([1, 2] : List ℤ) ≠ []) ∧ (2 ≤ 2) ∧ (2 ≤ ([1, 2] : List ℤ).length) ∧
    avgLast [1, 2] 2 = 2 ∧
    |2 * (avgLast [1, 2] 2 * (min 2 ([1, 2] : List ℤ).length : ℤ)
        - (([1, 2] : List ℤ).drop (([1, 2] : List ℤ).length
            - min 2 ([1, 2] : List ℤ).length)).sum)|
      ≤ (min 2 ([1, 2] : List ℤ).length : ℤ) :=
  ⟨by decide, by decide, by decide, by norm_num [avgLast, roundHalfEven],
    (avg_last_spec [1, 2] 2 (by decide)).2 (by decide) (by decide)⟩


/-! ## Collector SSR controller (`tasks/collector_ssr_controller.py`)

The controller (hardware branch) maintains `active: set[tool]`, updates
it on each `"<tool>.on"` / `"<tool>.off"` event of a configured tool
(tracking whether the set changed), and calls `blower_on()` /
`blower_off()` — which drive the SSR and the strip-light GPIO together —
exactly when `bool(active)` disagrees with `ssr_on`. -/

/-- Actuation calls made by the controller; each drives both the SSR and
the strip-light output. -/
inductive SsrAction where
  | blowerOn
  | blowerOff
deriving DecidableEq, Repr

/-- Controller state: the active tool set and the `ssr_on` flag. -/
structure SsrState where
  active : Finset String
  ssrOn : Bool
deriving DecidableEq

/-- One iteration of the `for tool in cfg.tools` loop body: update the
set and the `changed` flag for one configured tool. -/
def applyOneTool (evType : String) (acc : Finset String × Bool)
    (tool : String) : Finset String × Bool :=
  if evType = tool ++ ".on" then
    (if tool ∈ acc.1 then acc else (insert tool acc.1, true))
  else if evType = tool ++ ".off" then
    (if tool ∈ acc.1 then (acc.1.erase tool, true) else acc)
  else acc

/-- The whole `for tool in cfg.tools` loop over one event. -/
def applyToolEvents (tools : List String) (evType : String)
    (active : Finset String) : Finset String × Bool :=
  tools.foldl (applyOneTool evType) (active, false)

/-- Handling of one event by the controller loop: update the set; if it
changed, reconcile the SSR with `want_on = bool(active)`; return the new
state and the actuation calls made. -/
def ssrStep (tools : List String) (s : SsrState) (evType : String) :
    SsrState × List SsrAction :=
  let r := applyToolEvents tools evType s.active
  if r.2 = false then ({ s with active := r.1 }, [])
  else if r.1.Nonempty then
    (if s.ssrOn then (⟨r.1, s.ssrOn⟩, []) else (⟨r.1, true⟩, [.blowerOn]))
  else
    (if s.ssrOn then (⟨r.1, false⟩, [.blowerOff]) else (⟨r.1, s.ssrOn⟩, []))

/-- Initial state: `blower_off()` has run, `ssr_on = False`,
`active = set()`. -/
def ssrInit : SsrState := ⟨∅, false⟩

/-- The controller state after a finite sequence of bus events. -/
def ssrRunState (tools : List String) (evs : List String) : SsrState :=
  evs.foldl (fun s e => (ssrStep tools s e).1) ssrInit

lemma applyOneTool_cases (evType : String) (acc : Finset String × Bool)
    (tool : String) :
    applyOneTool evType acc tool = acc ∨
      (applyOneTool evType acc tool).2 = true := by
  unfold applyOneTool
  split_ifs <;> simp

lemma applyOneTool_mono (evType : String) (acc : Finset String × Bool)
    (tool : String) (h : acc.2 = true) :
    (applyOneTool evType acc tool).2 = true := by
  unfold applyOneTool
  split_ifs <;> simp_all

lemma foldl_applyOneTool_mono (evType : String) (tools : List String) :
    ∀ acc, acc.2 = true → (tools.foldl (applyOneTool evType) acc).2 = true := by
  induction tools with
  | nil => intro acc h; simpa using h
  | cons t ts ih =>
      intro acc h
      rw [List.foldl_cons]
      exact ih _ (applyOneTool_mono evType acc t h)

lemma foldl_applyOneTool_unchanged (evType : String) (tools : List String) :
    ∀ acc, (tools.foldl (applyOneTool evType) acc).2 = false →
      tools.foldl (applyOneTool evType) acc = acc := by
  induction tools with
  | nil => intro acc _; rfl
  | cons t ts ih =>
      intro acc h
      rw [List.foldl_cons] at h ⊢
      rcases applyOneTool_cases evType acc t with he | he
      · rw [he] at h ⊢
        exact ih _ h
      · have := foldl_applyOneTool_mono evType ts _ he
        rw [h] at this
        exact absurd this (by simp)

/-- The collector invariant: `ssr_on` iff the active set is
non-empty. -/
def ssrInv (s : SsrState) : Prop := s.ssrOn = true ↔ s.active.Nonempty

lemma ssrInv_init : ssrInv ssrInit := by
  simp [ssrInv, ssrInit]

lemma ssrInv_step (tools : List String) (s : SsrState) (e : String)
    (h : ssrInv s) : ssrInv (ssrStep tools s e).1 := by
  unfold ssrStep
  rcases hch : (applyToolEvents tools e s.active).2 with _ | _
  · have ha := foldl_applyOneTool_unchanged e tools (s.active, false) hch
    simp only [hch, if_pos rfl]
    have : (applyToolEvents tools e s.active).1 = s.active := by
      unfold applyToolEvents at ha ⊢
      rw [ha]
    simpa [ssrInv, this] using h
  · by_cases hne : (applyToolEvents tools e s.active).1.Nonempty
    all_goals rcases hon : s.ssrOn with _ | _
    all_goals simp_all [ssrInv, Finset.not_nonempty_iff_eq_empty]

lemma ssrInv_run (tools : List String) (evs : List String) :
    ssrInv (ssrRunState tools evs) := by
  unfold ssrRunState
  have h : ∀ s, ssrInv s →
      ssrInv (evs.foldl (fun s e => (ssrStep tools s e).1) s) := by
    induction evs with
    | nil => intro s h; simpa using h
    | cons e es ih =>
        intro s h
        rw [List.foldl_cons]
        exact ih _ (ssrInv_step tools s e h)
  exact h ssrInit ssrInv_init

lemma ssrStep_actions (tools : List String) (s : SsrState) (e : String)
    (h : ssrInv s) :
    ((ssrStep tools s e).2 = [.blowerOn] ↔
      (s.active = ∅ ∧ (ssrStep tools s e).1.active.Nonempty)) ∧
    ((ssrStep tools s e).2 = [.blowerOff] ↔
      (s.active.Nonempty ∧ (ssrStep tools s e).1.active = ∅)) := by
  unfold ssrStep
  rcases hch : (applyToolEvents tools e s.active).2 with _ | _
  · have ha := foldl_applyOneTool_unchanged e tools (s.active, false) hch
    have heq : (applyToolEvents tools e s.active).1 = s.active := by
      unfold applyToolEvents at ha ⊢
      rw [ha]
    simp_all [Finset.not_nonempty_iff_eq_empty]
    intro h0
    exact Finset.nonempty_iff_ne_empty.mp h0
  · by_cases hne : (applyToolEvents tools e s.active).1.Nonempty
    all_goals rcases hon : s.ssrOn with _ | _
    all_goals simp_all [ssrInv, Finset.not_nonempty_iff_eq_empty]
    · exact ⟨Finset.nonempty_iff_ne_empty.mp h,
        Finset.nonempty_iff_ne_empty.mp hne⟩

/-- C8: after any finite sequence of configured-tool on/off events from
the initial empty state, the SSR (and strip-light) output is energized
iff the active tool set is non-empty; moreover on each event the
`blower_on` call happens exactly on the transition of the set from empty
to non-empty and `blower_off` exactly on the transition to empty, with
no turn-off delay. -/
theorem collector_ssr_iff_active (tools : List String) (evs : List String) :
    ((ssrRunState tools evs).ssrOn = true ↔
      (ssrRunState tools evs).active.Nonempty) ∧
    (∀ e, ((ssrStep tools (ssrRunState tools evs) e).2 = [.blowerOn] ↔
        ((ssrRunState tools evs).active = ∅ ∧
          (ssrStep tools (ssrRunState tools evs) e).1.active.Nonempty)) ∧
      ((ssrStep tools (ssrRunState tools evs) e).2 = [.blowerOff] ↔
        ((ssrRunState tools evs).active.Nonempty ∧
          (ssrStep tools (ssrRunState tools evs) e).1.active = ∅))) :=
  ⟨ssrInv_run tools evs,
    fun e => ssrStep_actions tools (ssrRunState tools evs) e
      (ssrInv_run tools evs)⟩

end DustCollector
